import Mathlib

/-!
Verification of the task-scheduler backend core: a shallow embedding of the
task scheduling and availability engine (overlap query, validation domain,
data preparation domain, domain-service orchestration and the application
service with its queue and notification side effects), together with proofs
of the behavioural properties stated in the specification.

Modelling conventions:
* Timestamps are `Int` values; a DTO date field holds the parsed timestamp
  (`none` when the field is absent from the request body).
* Optional JavaScript values (`number | undefined`, `string | undefined`)
  are `Option` values; JavaScript truthiness of a numeric id is captured by
  `truthyId` (both `undefined` and `0` are falsy).
* Database reads and writes are explicit state passing over a `Store`
  (a list of task rows); generated primary keys are modelled by `freshId`.
* Thrown exceptions are `Except` errors; a try/catch that swallows a
  failure is a total function whose result does not depend on the failure.
* Fire-and-forget side effects (queue jobs, websocket notifications) are
  recorded in an `Effect` list; a failing side effect emits no `Effect`
  and is caught, leaving the operation result unchanged.
-/

namespace Scheduler

/-- Task status enum from the Task entity (`in_progress` / `completed`). -/
inductive TaskStatus where
  | inProgress
  | completed
deriving DecidableEq, Repr

/-- User role enum from the User entity (`admin` / `manager` / `user`). -/
inductive UserRole where
  | admin
  | manager
  | user
deriving DecidableEq, Repr

/-- The Task entity: scalar columns of the `tasks` table. The ORM relation
objects and the store-maintained `createdAt` / `updatedAt` timestamps are
not part of the scheduling logic and are omitted. -/
structure Task where
  id : Nat
  title : String
  description : Option String
  assignedUserId : Option Nat
  assignedById : Option Nat
  status : TaskStatus
  startDate : Int
  endDate : Int
deriving DecidableEq, Repr

/-- The task table: a list of rows. -/
abbrev Store := List Task

/-- CreateTaskDto: all fields optional at runtime (the validation domain
checks their presence itself); date strings are modelled by their parsed
timestamps. -/
structure CreateTaskDto where
  title : Option String
  description : Option String
  startDate : Option Int
  endDate : Option Int
  assignedUserId : Option Nat
  status : Option TaskStatus
deriving DecidableEq, Repr

/-- UpdateTaskDto: a sparse patch; `none` means the key is absent from the
request body. -/
structure UpdateTaskDto where
  title : Option String
  description : Option String
  startDate : Option Int
  endDate : Option Int
  assignedUserId : Option Nat
  status : Option TaskStatus
deriving DecidableEq, Repr

/-- ReassignTaskDto: the new assignee id. -/
structure ReassignTaskDto where
  assignedUserId : Nat
deriving DecidableEq, Repr

/-- JavaScript truthiness of an optional numeric id: `undefined`, `null`
and `0` are falsy. -/
def truthyId : Option Nat → Bool
  | some v => decide (v ≠ 0)
  | none => false

/-- JavaScript `String.prototype.trim`, modelled on the character list:
drops leading and trailing whitespace. -/
def jsTrim (s : String) : String :=
  ⟨((s.data.dropWhile Char.isWhitespace).reverse.dropWhile Char.isWhitespace).reverse⟩

/-- The exception taxonomy of `task-exceptions.ts` restricted to the
constructors the embedded code paths raise. -/
inductive TaskError where
  | notFound (taskId : Nat)
  | validation (msg : String)
  | permission (msg : String)
  | operation (op : String) (taskId : Nat)
deriving DecidableEq, Repr

/-- The message of the overlap failure raised by `TaskDomainService`. -/
def overlapMessage : String := "User already has an overlapping task during this time period"

/-- SQL equality `task.assigned_user_id = :userId`: comparison with a NULL
operand is never satisfied. -/
def sqlEqUser : Option Nat → Option Nat → Bool
  | some x, some y => decide (x = y)
  | _, _ => false

/-- The WHERE clause of `hasOverlappingTasks`: same assignee, status not
completed, and the boundary-inclusive window test
`task.startDate <= :endDate AND task.endDate >= :startDate`. -/
def taskMatchesOverlapQuery (t : Task) (userId : Option Nat) (startDate endDate : Int) : Bool :=
  sqlEqUser t.assignedUserId userId &&
    decide (t.status ≠ TaskStatus.completed) &&
    (decide (t.startDate ≤ endDate) && decide (startDate ≤ t.endDate))

/-- `TaskRepositoryService.hasOverlappingTasks`: filters the task table by
the overlap WHERE clause, adds `task.id != :excludeTaskId` only when
`excludeTaskId` is truthy (`if (excludeTaskId)` in the source, so `null`
and `0` both skip the exclusion), and reports whether any row matched. -/
def hasOverlappingTasks (s : Store) (userId : Option Nat) (startDate endDate : Int)
    (excludeTaskId : Option Nat) : Bool :=
  let query := s.filter (fun t => taskMatchesOverlapQuery t userId startDate endDate)
  let overlappingTasks :=
    match excludeTaskId with
    | some e => if e ≠ 0 then query.filter (fun (t : Task) => decide (t.id ≠ e)) else query
    | none => query
  decide (0 < overlappingTasks.length)

/-- `AvailabilityService.checkOverlap` delegates to the repository query. -/
def checkOverlap (s : Store) (userId : Option Nat) (startDate endDate : Int)
    (excludeTaskId : Option Nat) : Bool :=
  hasOverlappingTasks s userId startDate endDate excludeTaskId

/-- Unfolding lemma: `sqlEqUser` against a present user id. -/
theorem sqlEqUser_some_iff (a : Option Nat) (u : Nat) :
    sqlEqUser a (some u) = true ↔ a = some u := by
  cases a <;> simp [sqlEqUser]

/-- Unfolding lemma: the overlap WHERE clause as a proposition. -/
theorem taskMatchesOverlapQuery_iff (t : Task) (u : Nat) (sd ed : Int) :
    taskMatchesOverlapQuery t (some u) sd ed = true ↔
      t.assignedUserId = some u ∧ t.status ≠ TaskStatus.completed ∧
        t.startDate ≤ ed ∧ sd ≤ t.endDate := by
  simp [taskMatchesOverlapQuery, sqlEqUser_some_iff, and_assoc]

/-- Characterisation of the repository query: a match exists among the rows
that survive the (truthiness-guarded) exclusion filter. -/
theorem hasOverlappingTasks_true_iff (s : Store) (userId : Option Nat) (sd ed : Int)
    (ex : Option Nat) :
    hasOverlappingTasks s userId sd ed ex = true ↔
      ∃ t, t ∈ s ∧ taskMatchesOverlapQuery t userId sd ed = true ∧
        (∀ e, ex = some e → e ≠ 0 → t.id ≠ e) := by
  unfold hasOverlappingTasks
  cases ex with
  | none =>
      simp only [decide_eq_true_eq, List.length_pos_iff_exists_mem, List.mem_filter]
      constructor
      · rintro ⟨t, ht, hq⟩
        exact ⟨t, ht, hq, by simp⟩
      · rintro ⟨t, ht, hq, _⟩
        exact ⟨t, ht, hq⟩
  | some e =>
      by_cases he : e = 0
      · subst he
        simp only [ne_eq, not_true_eq_false, if_false, decide_eq_true_eq,
          List.length_pos_iff_exists_mem, List.mem_filter]
        constructor
        · rintro ⟨t, ht, hq⟩
          refine ⟨t, ht, hq, ?_⟩
          intro x hx h0
          exact absurd (Option.some.inj hx).symm h0
        · rintro ⟨t, ht, hq, _⟩
          exact ⟨t, ht, hq⟩
      · simp only [ne_eq, he, not_false_eq_true, if_true, decide_eq_true_eq,
          List.length_pos_iff_exists_mem, List.mem_filter]
        constructor
        · rintro ⟨t, ⟨ht, hq⟩, hid⟩
          refine ⟨t, ht, hq, ?_⟩
          rintro x hx _
          simp only [Option.some.injEq] at hx
          subst hx
          simpa using hid
        · rintro ⟨t, ht, hq, hid⟩
          exact ⟨t, ⟨ht, hq⟩, by simpa using hid e rfl he⟩

/-- C1: for every userId, proposed window and optional excludeTaskId,
`checkOverlap` (via `hasOverlappingTasks`) returns true iff some task of
that user is non-completed, is not the excluded task (when an exclusion is
given), and satisfies the boundary-inclusive window test; the hypothesis
records that stored task ids are never 0 (AUTO_INCREMENT keys start at 1),
under which the truthiness-guarded exclusion filter of the source is
exactly the exclusion the claim describes. -/
theorem checkOverlap_conflict_iff (s : Store) (userId : Nat) (startDate endDate : Int)
    (excludeTaskId : Option Nat) (hids : ∀ t ∈ s, t.id ≠ 0) :
    checkOverlap s (some userId) startDate endDate excludeTaskId = true ↔
      ∃ t ∈ s, t.assignedUserId = some userId ∧ t.status ≠ TaskStatus.completed ∧
        (∀ e, excludeTaskId = some e → t.id ≠ e) ∧
        t.startDate ≤ endDate ∧ startDate ≤ t.endDate := by
  rw [checkOverlap, hasOverlappingTasks_true_iff]
  constructor
  · rintro ⟨t, ht, hq, hex⟩
    rw [taskMatchesOverlapQuery_iff] at hq
    refine ⟨t, ht, hq.1, hq.2.1, ?_, hq.2.2⟩
    intro e he
    by_cases h0 : e = 0
    · subst h0
      exact hids t ht
    · exact hex e he h0
  · rintro ⟨t, ht, hu, hs, hex, hw1, hw2⟩
    refine ⟨t, ht, ?_, ?_⟩
    · rw [taskMatchesOverlapQuery_iff]
      exact ⟨hu, hs, hw1, hw2⟩
    · intro e he _
      exact hex e he

/-- A concrete task used by witnesses: user 7, window 0..10, in progress. -/
def overlapWitnessTask : Task :=
  { id := 1, title := "T1", description := none, assignedUserId := some 7,
    assignedById := some 2, status := TaskStatus.inProgress, startDate := 0, endDate := 10 }

/-- Witness for C1 at a concrete store and a window that merely touches the
stored window at its right boundary (so the conflict holds). -/
theorem checkOverlap_conflict_iff_witness :
    (∀ t ∈ [overlapWitnessTask], t.id ≠ 0) ∧
      (checkOverlap [overlapWitnessTask] (some 7) 10 15 none = true ↔
        ∃ t ∈ [overlapWitnessTask], t.assignedUserId = some 7 ∧
          t.status ≠ TaskStatus.completed ∧
          (∀ e, (none : Option Nat) = some e → t.id ≠ e) ∧
          t.startDate ≤ 15 ∧ (10 : Int) ≤ t.endDate) :=
  ⟨by decide, checkOverlap_conflict_iff [overlapWitnessTask] 7 10 15 none (by decide)⟩

/-- `TaskValidationDomain.validateRequiredFields`: title must survive
`!title?.trim()`, dates must be present, and `!assignedUserId` must be
falsy (so an id of 0 is rejected like a missing one). -/
def validateRequiredFields (createTaskDto : CreateTaskDto) : Except TaskError Unit :=
  if jsTrim (createTaskDto.title.getD ("")) = "" then
    .error (.validation ("Task title is required"))
  else if createTaskDto.startDate = none then
    .error (.validation ("Start date is required"))
  else if createTaskDto.endDate = none then
    .error (.validation ("End date is required"))
  else if truthyId createTaskDto.assignedUserId = false then
    .error (.validation ("Assigned user is required"))
  else
    .ok ()

/-- `TaskValidationDomain.validateDateRange`: rejects `start >= end` and a
start strictly before the current instant. -/
def validateDateRange (startDate endDate : Option Int) (now : Int) : Except TaskError Unit :=
  let start := startDate.getD 0
  let stop := endDate.getD 0
  if stop ≤ start then
    .error (.validation ("Start date must be before end date"))
  else if start < now then
    .error (.validation ("Start date cannot be in the past"))
  else
    .ok ()

/-- `TaskValidationDomain.validateTaskCreationData`. -/
def validateTaskCreationData (createTaskDto : CreateTaskDto) (now : Int) :
    Except TaskError Unit := do
  validateRequiredFields createTaskDto
  validateDateRange createTaskDto.startDate createTaskDto.endDate now

/-- The keys present on an UpdateTaskDto body (`Object.keys(updateRequest)`
after the global whitelist pipe). -/
def updateDtoKeys (updateRequest : UpdateTaskDto) : List String :=
  (if updateRequest.title.isSome then ["title"] else []) ++
  (if updateRequest.description.isSome then ["description"] else []) ++
  (if updateRequest.startDate.isSome then ["startDate"] else []) ++
  (if updateRequest.endDate.isSome then ["endDate"] else []) ++
  (if updateRequest.assignedUserId.isSome then ["assignedUserId"] else []) ++
  (if updateRequest.status.isSome then ["status"] else [])

/-- `TaskValidationDomain.validateUserCanOnlyUpdateStatus`. -/
def validateUserCanOnlyUpdateStatus (updateRequest : UpdateTaskDto) : Except TaskError Unit :=
  let allowedFields := ["status"]
  let requestedFields := updateDtoKeys updateRequest
  let restrictedFields := requestedFields.filter (fun f => !allowedFields.contains f)
  if 0 < restrictedFields.length then
    .error (.permission ("Regular users can only update: " ++
      String.intercalate (", ") allowedFields ++ ". Attempted to update: " ++
      String.intercalate (", ") restrictedFields))
  else
    .ok ()

/-- `TaskValidationDomain.validateTaskUpdatePermissions`. -/
def validateTaskUpdatePermissions (task : Task) (updateRequest : UpdateTaskDto)
    (userRole : Option UserRole) (currentUserId : Option Nat) : Except TaskError Unit :=
  if userRole = some UserRole.user ∧ task.assignedUserId ≠ currentUserId then
    .error (.permission ("You can only update your own tasks"))
  else if userRole = some UserRole.user then
    validateUserCanOnlyUpdateStatus updateRequest
  else
    .ok ()

/-- `TaskValidationDomain.validateTaskReassignmentData`:
`!reassignmentRequest.assignedUserId` rejects 0 like a missing id. -/
def validateTaskReassignmentData (reassignmentRequest : ReassignTaskDto) : Except TaskError Unit :=
  if reassignmentRequest.assignedUserId = 0 then
    .error (.validation ("Assigned user ID is required for reassignment"))
  else
    .ok ()

/-- The scalar field set of a `Partial<Task>` produced by the preparation
functions (everything except the generated primary key). -/
structure TaskFields where
  title : String
  description : Option String
  status : TaskStatus
  startDate : Int
  endDate : Int
  assignedUserId : Option Nat
  assignedById : Option Nat
deriving DecidableEq, Repr

/-- `TaskDataPreparationDomain.prepareTaskForCreation`: trims title and
description, defaults status to IN_PROGRESS, parses the dates, stamps the
creator. -/
def prepareTaskForCreation (createRequest : CreateTaskDto) (creatorUserId : Option Nat) :
    TaskFields :=
  { title := jsTrim (createRequest.title.getD ("")),
    description := createRequest.description.map (fun d => jsTrim d),
    status := createRequest.status.getD TaskStatus.inProgress,
    startDate := createRequest.startDate.getD 0,
    endDate := createRequest.endDate.getD 0,
    assignedUserId := createRequest.assignedUserId,
    assignedById := creatorUserId }

/-- `TaskDataPreparationDomain.applyTaskReassignment`: mutates the loaded
entity, setting the new assignee and the requesting user (the relation
object it also clears is not part of the scalar model). -/
def applyTaskReassignment (targetTask : Task) (reassignmentRequest : ReassignTaskDto)
    (requestingUserId : Option Nat) : Task :=
  { targetTask with
    assignedUserId := some reassignmentRequest.assignedUserId,
    assignedById := requestingUserId }

/-- `TaskDataPreparationDomain.requiresOverlapValidation`: true iff the
patch touches assignedUserId, startDate or endDate (JS truthiness). -/
def requiresOverlapValidation (updateRequest : UpdateTaskDto) : Bool :=
  truthyId updateRequest.assignedUserId ||
    updateRequest.startDate.isSome || updateRequest.endDate.isSome

/-- `TaskDataPreparationDomain.calculateEffectiveDateRange`. -/
def calculateEffectiveDateRange (existingTask : Task) (updateRequest : UpdateTaskDto) :
    Int × Int :=
  (updateRequest.startDate.getD existingTask.startDate,
   updateRequest.endDate.getD existingTask.endDate)

/-- `TaskBusinessLogicService.buildTaskEntityForCreation`: spreads the dto
verbatim (no trimming), defaults status, parses dates, stamps the creator.
This is the field set the create operation actually persists. -/
def buildTaskEntityForCreation (taskCreationRequest : CreateTaskDto)
    (creatorUserId : Option Nat) : TaskFields :=
  { title := taskCreationRequest.title.getD (""),
    description := taskCreationRequest.description,
    status := taskCreationRequest.status.getD TaskStatus.inProgress,
    startDate := taskCreationRequest.startDate.getD 0,
    endDate := taskCreationRequest.endDate.getD 0,
    assignedUserId := taskCreationRequest.assignedUserId,
    assignedById := creatorUserId }

/-- `TaskBusinessLogicService.buildTaskEntityForUpdate` combined with the
subsequent `Object.assign(task, updates)` of `saveAndReloadTask`: the net
entity state that gets saved. The reassignment branch fires only when the
dto carries a truthy assignedUserId different from the existing one. -/
def buildTaskEntityForUpdate (existingTask : Task) (requestedUpdates : UpdateTaskDto)
    (requestingUserId : Option Nat) : Task :=
  let reassigned :=
    if truthyId requestedUpdates.assignedUserId = true ∧
        requestedUpdates.assignedUserId ≠ existingTask.assignedUserId then
      { existingTask with
        assignedUserId := requestedUpdates.assignedUserId,
        assignedById := requestingUserId }
    else existingTask
  { reassigned with
    title := requestedUpdates.title.getD existingTask.title,
    description :=
      if requestedUpdates.description.isSome then requestedUpdates.description
      else existingTask.description,
    status := requestedUpdates.status.getD existingTask.status,
    startDate := requestedUpdates.startDate.getD existingTask.startDate,
    endDate := requestedUpdates.endDate.getD existingTask.endDate }

/-- `TaskBusinessLogicService.buildTaskEntityForReassignment` merged into
the target entity by `Object.assign(task, updates)`. -/
def buildTaskEntityForReassignment (targetTask : Task) (reassignmentRequest : ReassignTaskDto)
    (requestingUserId : Option Nat) : Task :=
  { targetTask with
    assignedUserId := some reassignmentRequest.assignedUserId,
    assignedById := requestingUserId }

/-- `TaskRepositoryService.findOne`. -/
def findOne (s : Store) (id : Nat) : Option Task :=
  s.find? (fun (t : Task) => decide (t.id = id))

/-- `TaskRepositoryService.save` of an entity whose id already exists. -/
def saveTask (s : Store) (t : Task) : Store :=
  s.map (fun (x : Task) => if x.id = t.id then t else x)

/-- A fresh AUTO_INCREMENT primary key: one more than the largest id. -/
def freshId (s : Store) : Nat :=
  s.foldr (fun (t : Task) (m : Nat) => max t.id m) 0 + 1

/-- A row built from a prepared field set and a generated key. -/
def taskFromFields (f : TaskFields) (id : Nat) : Task :=
  { id := id, title := f.title, description := f.description,
    assignedUserId := f.assignedUserId, assignedById := f.assignedById,
    status := f.status, startDate := f.startDate, endDate := f.endDate }

/-- The scalar field set of a stored row. -/
def fieldsOfTask (t : Task) : TaskFields :=
  { title := t.title, description := t.description, status := t.status,
    startDate := t.startDate, endDate := t.endDate,
    assignedUserId := t.assignedUserId, assignedById := t.assignedById }

/-- `TaskRepositoryService.delete`: removes the row when present. -/
def deleteTask (s : Store) (id : Nat) : Store :=
  s.filter (fun (t : Task) => decide (t.id ≠ id))

/-- `TaskDomainService.prepareTaskCreation`: pure validation, then the
overlap check with no exclusion, then pure preparation (the source calls
`prepareTaskForCreation(createTaskDto)` without a creator, and its caller
`validateTaskCreation` discards the prepared data). -/
def prepareTaskCreation (s : Store) (createTaskDto : CreateTaskDto) (now : Int) :
    Except TaskError TaskFields := do
  validateTaskCreationData createTaskDto now
  if hasOverlappingTasks s createTaskDto.assignedUserId (createTaskDto.startDate.getD 0)
      (createTaskDto.endDate.getD 0) none then
    .error (.validation overlapMessage)
  else
    .ok (prepareTaskForCreation createTaskDto none)

/-- `TaskDomainService.prepareTaskUpdate`: load, permission check, then the
overlap check only when the patch touches assignee or window, against the
effective assignee (`updateTaskDto.assignedUserId || task.assignedUserId`)
and the effective range, excluding the task itself. -/
def prepareTaskUpdate (s : Store) (taskId : Nat) (updateTaskDto : UpdateTaskDto)
    (currentUserRole : Option UserRole) (currentUserId : Option Nat) :
    Except TaskError Task :=
  match findOne s taskId with
  | none => .error (.notFound taskId)
  | some task => do
      validateTaskUpdatePermissions task updateTaskDto currentUserRole currentUserId
      if requiresOverlapValidation updateTaskDto then
        let range := calculateEffectiveDateRange task updateTaskDto
        let effectiveUser :=
          if truthyId updateTaskDto.assignedUserId then updateTaskDto.assignedUserId
          else task.assignedUserId
        if hasOverlappingTasks s effectiveUser range.1 range.2 (some taskId) then
          .error (.validation overlapMessage)
        else
          .ok task
      else
        .ok task

/-- `TaskDomainService.prepareTaskReassignment`: load, validate the dto,
overlap check for the new assignee over the unchanged window excluding the
task itself, then `applyTaskReassignment` on the loaded entity (the source
passes no requestingUserId here, so assignedById becomes undefined; it is
restored by the application service before saving). -/
def prepareTaskReassignment (s : Store) (taskId : Nat) (reassignTaskDto : ReassignTaskDto) :
    Except TaskError Task :=
  match findOne s taskId with
  | none => .error (.notFound taskId)
  | some task => do
      validateTaskReassignmentData reassignTaskDto
      if hasOverlappingTasks s (some reassignTaskDto.assignedUserId) task.startDate
          task.endDate (some taskId) then
        .error (.validation overlapMessage)
      else
        .ok (applyTaskReassignment task reassignTaskDto none)

/-- `TaskDomainService.validateTaskDeletion`. -/
def validateTaskDeletion (s : Store) (taskId : Nat) : Except TaskError Task :=
  match findOne s taskId with
  | none => .error (.notFound taskId)
  | some task => .ok task

/-- An observable asynchronous side effect of an operation. -/
inductive Effect where
  | queued (userId : Nat)
  | notified (userId : Nat) (event : String)
deriving DecidableEq, Repr

/-- Whether an effect is a websocket notification. -/
def Effect.isNotify : Effect → Bool
  | queued _ => false
  | notified _ _ => true

/-- `TasksService.queueAvailabilityUpdate`: skipped for a falsy user id;
an enqueue failure is caught and logged, leaving no effect. -/
def queueAvailabilityUpdate (userId : Option Nat) (queueFails : Bool) : List Effect :=
  match userId with
  | some u => if u ≠ 0 then (if queueFails then [] else [Effect.queued u]) else []
  | none => []

/-- `TaskNotificationService.notifyTaskCreated`: returns early for a falsy
assignee; a gateway failure is caught and logged. -/
def notifyTaskCreated (task : Task) (notifyFails : Bool) : List Effect :=
  match task.assignedUserId with
  | none => []
  | some u =>
      if u = 0 then []
      else if notifyFails then []
      else [Effect.notified u ("task:created")]

/-- `TaskNotificationService.notifyTaskCompleted`: notifies the assigner
recorded on the task; returns early for a falsy assignedById. -/
def notifyTaskCompleted (task : Task) (notifyFails : Bool) : List Effect :=
  match task.assignedById with
  | none => []
  | some u =>
      if u = 0 then []
      else if notifyFails then []
      else [Effect.notified u ("task:completed")]

/-- `TaskNotificationService.notifyTaskReassigned`: returns early for a
falsy assignee or when the assignee equals `oldAssignedUserId`. -/
def notifyTaskReassigned (task : Task) (oldAssignedUserId : Option Nat)
    (notifyFails : Bool) : List Effect :=
  match task.assignedUserId with
  | none => []
  | some u =>
      if u = 0 then []
      else if some u = oldAssignedUserId then []
      else if notifyFails then []
      else [Effect.notified u ("task:reassigned")]

/-- `TaskNotificationService.notifyTaskDeleted`. -/
def notifyTaskDeleted (task : Task) (notifyFails : Bool) : List Effect :=
  match task.assignedUserId with
  | none => []
  | some u =>
      if u = 0 then []
      else if notifyFails then []
      else [Effect.notified u ("task:deleted")]

/-- The outcome of one application-service operation: its returned value or
error, the task table afterwards, and the async side effects that ran. -/
structure OpResult (α : Type) where
  result : Except TaskError α
  store : Store
  effects : List Effect
deriving Repr

/-- `TasksService.create`: validate (the prepared data of the domain
service is discarded), build the entity with
`buildTaskEntityForCreation`, insert it, queue the availability job for
the assignee, reload, notify the assignee. -/
def createOp (s : Store) (createTaskDto : CreateTaskDto) (now : Int)
    (currentUserId : Option Nat) (queueFails notifyFails : Bool) : OpResult Task :=
  match prepareTaskCreation s createTaskDto now with
  | .error e => { result := .error e, store := s, effects := [] }
  | .ok _ =>
      let taskData := buildTaskEntityForCreation createTaskDto currentUserId
      let savedTask := taskFromFields taskData (freshId s)
      let s1 := s ++ [savedTask]
      let queueEffects := queueAvailabilityUpdate savedTask.assignedUserId queueFails
      match findOne s1 savedTask.id with
      | none =>
          { result := .error (.operation ("created") savedTask.id), store := s1,
            effects := queueEffects }
      | some result =>
          { result := .ok result, store := s1,
            effects := queueEffects ++ notifyTaskCreated result notifyFails }

/-- `TasksService.update`: prepare (validation, permissions, conditional
overlap check), capture the old assignee and status, build and save the
new entity state, reload, then queue availability jobs per
`handleAvailabilityUpdates` and notify per `handleUpdateNotifications`. -/
def updateOp (s : Store) (taskId : Nat) (updateTaskDto : UpdateTaskDto)
    (currentUserId : Option Nat) (currentUserRole : Option UserRole)
    (queueFails notifyFails : Bool) : OpResult Task :=
  match prepareTaskUpdate s taskId updateTaskDto currentUserRole currentUserId with
  | .error e => { result := .error e, store := s, effects := [] }
  | .ok task =>
      let oldAssignedUserId := task.assignedUserId
      let oldStatus := task.status
      let savedTask := buildTaskEntityForUpdate task updateTaskDto currentUserId
      let s1 := saveTask s savedTask
      match findOne s1 savedTask.id with
      | none =>
          { result := .error (.operation ("updated") savedTask.id), store := s1,
            effects := [] }
      | some updatedTask =>
          let availabilityEffects :=
            (if truthyId updatedTask.assignedUserId = true ∧
                (updateTaskDto.startDate.isSome ∨ updateTaskDto.endDate.isSome ∨
                  truthyId updateTaskDto.assignedUserId = true) then
              queueAvailabilityUpdate updatedTask.assignedUserId queueFails
            else []) ++
            (if truthyId updateTaskDto.assignedUserId = true ∧
                truthyId oldAssignedUserId = true ∧
                oldAssignedUserId ≠ updatedTask.assignedUserId then
              queueAvailabilityUpdate oldAssignedUserId queueFails
            else [])
          let notifyEffects :=
            if updateTaskDto.status = some TaskStatus.completed ∧
                oldStatus ≠ TaskStatus.completed then
              notifyTaskCompleted updatedTask notifyFails
            else []
          { result := .ok updatedTask, store := s1,
            effects := availabilityEffects ++ notifyEffects }

/-- `TasksService.reassign`. The task returned by
`prepareTaskReassignment` is the loaded entity already mutated in place by
`applyTaskReassignment`, so `oldAssignedUserId` below reads the new
assignee, exactly as the source does. -/
def reassignOp (s : Store) (taskId : Nat) (reassignTaskDto : ReassignTaskDto)
    (currentUserId : Option Nat) (queueFails notifyFails : Bool) : OpResult Task :=
  match prepareTaskReassignment s taskId reassignTaskDto with
  | .error e => { result := .error e, store := s, effects := [] }
  | .ok task =>
      let oldAssignedUserId := task.assignedUserId
      let savedTask := buildTaskEntityForReassignment task reassignTaskDto currentUserId
      let s1 := saveTask s savedTask
      let queueEffects :=
        queueAvailabilityUpdate savedTask.assignedUserId queueFails ++
        (if truthyId oldAssignedUserId = true ∧
            oldAssignedUserId ≠ savedTask.assignedUserId then
          queueAvailabilityUpdate oldAssignedUserId queueFails
        else [])
      match findOne s1 savedTask.id with
      | none =>
          { result := .error (.operation ("reassigned") savedTask.id), store := s1,
            effects := queueEffects }
      | some result =>
          { result := .ok result, store := s1,
            effects := queueEffects ++ notifyTaskReassigned result oldAssignedUserId notifyFails }

/-- `TasksService.remove`: load and validate, delete the row, queue the
availability job for the assignee the task had, notify that assignee. -/
def deleteOp (s : Store) (taskId : Nat) (queueFails notifyFails : Bool) : OpResult Unit :=
  match validateTaskDeletion s taskId with
  | .error e => { result := .error e, store := s, effects := [] }
  | .ok task =>
      let assignedUserId := task.assignedUserId
      let s1 := deleteTask s taskId
      { result := .ok (), store := s1,
        effects := queueAvailabilityUpdate assignedUserId queueFails ++
          notifyTaskDeleted task notifyFails }

/-- Characterisation of `validateTaskCreationData` success, read off the
source checks in order: non-blank title, both dates present, truthy
assignee, end after start, start not in the past. -/
theorem validateTaskCreationData_ok_iff (dto : CreateTaskDto) (now : Int) :
    validateTaskCreationData dto now = .ok () ↔
      ¬(jsTrim (dto.title.getD ("")) = "") ∧ dto.startDate ≠ none ∧ dto.endDate ≠ none ∧
        truthyId dto.assignedUserId = true ∧
        ¬(dto.endDate.getD 0 ≤ dto.startDate.getD 0) ∧ ¬(dto.startDate.getD 0 < now) := by
  unfold validateTaskCreationData validateRequiredFields validateDateRange
  simp only [bind, Except.bind]
  split_ifs with h1 h2 h3 h4 h5 h6 <;> simp_all

/-- Every failure of `validateTaskCreationData` is a ValidationError. -/
theorem validateTaskCreationData_error_shape (dto : CreateTaskDto) (now : Int) :
    (∃ m, validateTaskCreationData dto now = .error (.validation m)) ↔
      ¬(validateTaskCreationData dto now = .ok ()) := by
  unfold validateTaskCreationData validateRequiredFields validateDateRange
  simp only [bind, Except.bind]
  split_ifs <;> simp

/-- The failure condition asserted by claim C6, stated in the words of the
spec: empty or whitespace-only title, missing startDate, missing endDate,
missing assignedUserId, startDate at or after endDate, or startDate
strictly before the current instant. -/
def creationClaimCondition (dto : CreateTaskDto) (now : Int) : Prop :=
  jsTrim (dto.title.getD ("")) = "" ∨ dto.startDate = none ∨ dto.endDate = none ∨
    dto.assignedUserId = none ∨
    (dto.startDate.isSome = true ∧ dto.endDate.isSome = true ∧
      dto.endDate.getD 0 ≤ dto.startDate.getD 0) ∨
    (dto.startDate.isSome = true ∧ dto.startDate.getD 0 < now)

/-- An otherwise valid creation request whose assignedUserId is present but
equal to 0. -/
def creationZeroAssigneeDto : CreateTaskDto :=
  { title := some ("Task"), description := none, startDate := some 10, endDate := some 20,
    assignedUserId := some 0, status := none }

/-- C6 counterexample: a creation request with assignedUserId present and
equal to 0 is rejected with a ValidationError although none of the failure
conditions listed by the claim holds (the source tests JS truthiness of
the id, so 0 is rejected like a missing assignee). -/
theorem validateTaskCreationData_claim_counterexample :
    validateTaskCreationData creationZeroAssigneeDto 5 =
        .error (.validation ("Assigned user is required")) ∧
      ¬ creationClaimCondition creationZeroAssigneeDto 5 :=
  ⟨rfl, by unfold creationClaimCondition; decide⟩

/-- C6 amended: `validateTaskCreationData` raises a ValidationError if and
only if one of the conditions listed by the claim holds or the
assignedUserId is present but zero; in particular a start exactly at the
current instant is accepted and start at or after end always fails. -/
theorem validateTaskCreationData_validation_iff (dto : CreateTaskDto) (now : Int) :
    ((∃ m, validateTaskCreationData dto now = .error (.validation m)) ↔
      (creationClaimCondition dto now ∨ dto.assignedUserId = some 0)) ∧
    (validateTaskCreationData dto now = .ok () ↔
      ¬(creationClaimCondition dto now ∨ dto.assignedUserId = some 0)) := by
  have hok : validateTaskCreationData dto now = .ok () ↔
      ¬(creationClaimCondition dto now ∨ dto.assignedUserId = some 0) := by
    rw [validateTaskCreationData_ok_iff]
    unfold creationClaimCondition
    rcases dto with ⟨ti, de, sd, ed, au, st⟩
    cases sd <;> cases ed <;> cases au <;> simp [truthyId]
    all_goals tauto
  refine ⟨?_, hok⟩
  rw [validateTaskCreationData_error_shape, hok, not_not]

/-- Characterisation of `validateUserCanOnlyUpdateStatus`: it succeeds iff
no key other than status is present, and any failure is a PermissionError. -/
theorem validateUserCanOnlyUpdateStatus_spec (dto : UpdateTaskDto) :
    (validateUserCanOnlyUpdateStatus dto = .ok () ↔
      dto.title = none ∧ dto.description = none ∧ dto.startDate = none ∧
        dto.endDate = none ∧ dto.assignedUserId = none) ∧
    ((∃ m, validateUserCanOnlyUpdateStatus dto = .error (.permission m)) ↔
      ¬(dto.title = none ∧ dto.description = none ∧ dto.startDate = none ∧
        dto.endDate = none ∧ dto.assignedUserId = none)) := by
  rcases dto with ⟨ti, de, sd, ed, au, st⟩
  cases ti <;> cases de <;> cases sd <;> cases ed <;> cases au <;> cases st <;>
    simp [validateUserCanOnlyUpdateStatus, updateDtoKeys]

/-- C7: `validateTaskUpdatePermissions` raises a PermissionError iff the
caller role is USER and either the task is not assigned to the caller or
the dto contains a key other than status; any other role (including an
absent one) never fails, and a USER updating only the status of their own
task passes. -/
theorem validateTaskUpdatePermissions_spec (task : Task) (dto : UpdateTaskDto)
    (role : Option UserRole) (callerId : Option Nat) :
    (validateTaskUpdatePermissions task dto role callerId = .ok () ↔
      ¬(role = some UserRole.user ∧
        (task.assignedUserId ≠ callerId ∨ dto.title ≠ none ∨ dto.description ≠ none ∨
          dto.startDate ≠ none ∨ dto.endDate ≠ none ∨ dto.assignedUserId ≠ none))) ∧
    ((∃ m, validateTaskUpdatePermissions task dto role callerId = .error (.permission m)) ↔
      (role = some UserRole.user ∧
        (task.assignedUserId ≠ callerId ∨ dto.title ≠ none ∨ dto.description ≠ none ∨
          dto.startDate ≠ none ∨ dto.endDate ≠ none ∨ dto.assignedUserId ≠ none))) := by
  rcases validateUserCanOnlyUpdateStatus_spec dto with ⟨hok, herr⟩
  unfold validateTaskUpdatePermissions
  split_ifs with hA hB
  · constructor
    · constructor
      · intro h
        exact h.elim
      · intro hnp
        exact absurd ⟨hA.1, Or.inl hA.2⟩ hnp
    · constructor
      · intro _
        exact ⟨hA.1, Or.inl hA.2⟩
      · intro _
        exact ⟨("You can only update your own tasks"), rfl⟩
  · have hown : task.assignedUserId = callerId := by
      by_contra h
      exact hA ⟨hB, h⟩
    constructor
    · rw [hok]
      constructor
      · rintro ⟨h1, h2, h3, h4, h5⟩ ⟨_, hc | hc | hc | hc | hc | hc⟩
        exacts [hc hown, hc h1, hc h2, hc h3, hc h4, hc h5]
      · intro hnp
        by_contra hnq
        apply hnp
        refine ⟨hB, ?_⟩
        by_cases h1 : dto.title = none
        · by_cases h2 : dto.description = none
          · by_cases h3 : dto.startDate = none
            · by_cases h4 : dto.endDate = none
              · by_cases h5 : dto.assignedUserId = none
                · exact absurd ⟨h1, h2, h3, h4, h5⟩ hnq
                · exact Or.inr (Or.inr (Or.inr (Or.inr (Or.inr h5))))
              · exact Or.inr (Or.inr (Or.inr (Or.inr (Or.inl h4))))
            · exact Or.inr (Or.inr (Or.inr (Or.inl h3)))
          · exact Or.inr (Or.inr (Or.inl h2))
        · exact Or.inr (Or.inl h1)
    · rw [herr]
      constructor
      · intro hnq
        refine ⟨hB, ?_⟩
        by_cases h1 : dto.title = none
        · by_cases h2 : dto.description = none
          · by_cases h3 : dto.startDate = none
            · by_cases h4 : dto.endDate = none
              · by_cases h5 : dto.assignedUserId = none
                · exact absurd ⟨h1, h2, h3, h4, h5⟩ hnq
                · exact Or.inr (Or.inr (Or.inr (Or.inr (Or.inr h5))))
              · exact Or.inr (Or.inr (Or.inr (Or.inr (Or.inl h4))))
            · exact Or.inr (Or.inr (Or.inr (Or.inl h3)))
          · exact Or.inr (Or.inr (Or.inl h2))
        · exact Or.inr (Or.inl h1)
      · rintro ⟨_, hc | hc | hc | hc | hc | hc⟩ ⟨h1, h2, h3, h4, h5⟩
        exacts [hc hown, hc h1, hc h2, hc h3, hc h4, hc h5]
  · constructor
    · constructor
      · intro _ hP
        exact hB hP.1
      · intro _
        rfl
    · constructor
      · rintro ⟨m, hm⟩
        exact hm.elim
      · rintro ⟨h1, _⟩
        exact absurd h1 hB

/-- Every stored id is bounded by the running maximum used by `freshId`. -/
theorem id_le_foldr (s : Store) (t : Task) (ht : t ∈ s) :
    t.id ≤ s.foldr (fun (x : Task) (m : Nat) => max x.id m) 0 := by
  induction s with
  | nil => cases ht
  | cons a as ih =>
      rcases List.mem_cons.1 ht with rfl | h2
      · exact Nat.le_max_left _ _
      · exact le_trans (ih h2) (Nat.le_max_right _ _)

/-- A generated key differs from every stored id. -/
theorem id_ne_freshId (s : Store) (t : Task) (ht : t ∈ s) : t.id ≠ freshId s :=
  Nat.ne_of_lt (Nat.lt_succ_of_le (id_le_foldr s t ht))

/-- Reloading a freshly inserted row finds exactly that row. -/
theorem findOne_append_self (s : Store) (t : Task) (h : ∀ x ∈ s, x.id ≠ t.id) :
    findOne (s ++ [t]) t.id = some t := by
  induction s with
  | nil => simp [findOne]
  | cons a as ih =>
      have ha : ¬(a.id = t.id) := h a (List.mem_cons_self a as)
      have htail := ih (fun x hx => h x (List.mem_cons_of_mem a hx))
      unfold findOne at htail ⊢
      rw [List.cons_append, List.find?_cons_of_neg]
      · exact htail
      · simpa using ha

/-- A successful create returns exactly the row built by
`buildTaskEntityForCreation` under the generated key. -/
theorem createOp_ok_result (s : Store) (dto : CreateTaskDto) (now : Int)
    (cid : Option Nat) (qF nF : Bool) (t : Task)
    (hok : (createOp s dto now cid qF nF).result = .ok t) :
    t = taskFromFields (buildTaskEntityForCreation dto cid) (freshId s) := by
  have hfresh : findOne (s ++ [taskFromFields (buildTaskEntityForCreation dto cid) (freshId s)])
      (taskFromFields (buildTaskEntityForCreation dto cid) (freshId s)).id =
      some (taskFromFields (buildTaskEntityForCreation dto cid) (freshId s)) := by
    apply findOne_append_self
    intro x hx
    have hid : (taskFromFields (buildTaskEntityForCreation dto cid) (freshId s)).id = freshId s := rfl
    rw [hid]
    exact id_ne_freshId s x hx
  cases hp : prepareTaskCreation s dto now with
  | error e =>
      simp only [createOp, hp] at hok
      exact Except.noConfusion hok
  | ok f =>
      simp only [createOp, hp, hfresh] at hok
      exact (Except.ok.inj hok).symm

/-- A creation request whose title and description carry surrounding
whitespace. -/
def untrimmedDto : CreateTaskDto :=
  { title := some (" Trim me "), description := some (" d "), startDate := some 10,
    endDate := some 20, assignedUserId := some 3, status := none }

/-- The row the create operation persists for `untrimmedDto`: title and
description are stored verbatim. -/
def untrimmedCreatedTask : Task :=
  { id := 1, title := " Trim me ", description := some (" d "), assignedUserId := some 3,
    assignedById := some 9, status := TaskStatus.inProgress, startDate := 10, endDate := 20 }

/-- C10 counterexample: the create operation persists the dto title and
description untrimmed (it builds the entity with
`buildTaskEntityForCreation`, which spreads the dto verbatim, while the
prepared data of `prepareTaskForCreation` is computed and discarded), so
the persisted field set differs from `prepareTaskForCreation` on a title
with surrounding whitespace. -/
theorem createOp_persists_untrimmed_counterexample :
    (createOp [] untrimmedDto 5 (some 9) false false).result = .ok untrimmedCreatedTask ∧
      (createOp [] untrimmedDto 5 (some 9) false false).store = [untrimmedCreatedTask] ∧
      fieldsOfTask untrimmedCreatedTask ≠ prepareTaskForCreation untrimmedDto (some 9) :=
  ⟨rfl, rfl, by decide⟩

/-- C10 amended: the persisted field set equals the output of
`prepareTaskForCreation` applied to the dto and the creator id, except
that title and description are taken verbatim from the dto without
trimming; whenever the dto title and description carry no surrounding
whitespace the two field sets coincide. -/
theorem createOp_fields_eq_prepared (s : Store) (dto : CreateTaskDto) (now : Int)
    (cid : Option Nat) (qF nF : Bool) (t : Task)
    (hok : (createOp s dto now cid qF nF).result = .ok t)
    (htitle : jsTrim (dto.title.getD ("")) = dto.title.getD (""))
    (hdesc : dto.description.map (fun d => jsTrim d) = dto.description) :
    fieldsOfTask t = prepareTaskForCreation dto cid := by
  rw [createOp_ok_result s dto now cid qF nF t hok]
  show buildTaskEntityForCreation dto cid = prepareTaskForCreation dto cid
  unfold buildTaskEntityForCreation prepareTaskForCreation
  rw [htitle, hdesc]

/-- A creation request already in trimmed form. -/
def trimmedDto : CreateTaskDto :=
  { title := some ("Task"), description := none, startDate := some 10, endDate := some 20,
    assignedUserId := some 3, status := none }

/-- The row the create operation persists for `trimmedDto`. -/
def trimmedCreatedTask : Task :=
  { id := 1, title := "Task", description := none, assignedUserId := some 3,
    assignedById := some 9, status := TaskStatus.inProgress, startDate := 10, endDate := 20 }

/-- Witness for the amended C10 at a concrete trimmed request. -/
theorem createOp_fields_eq_prepared_witness :
    ((createOp [] trimmedDto 5 (some 9) false false).result = .ok trimmedCreatedTask) ∧
      (jsTrim (trimmedDto.title.getD ("")) = trimmedDto.title.getD ("")) ∧
      (trimmedDto.description.map (fun d => jsTrim d) = trimmedDto.description) ∧
      fieldsOfTask trimmedCreatedTask = prepareTaskForCreation trimmedDto (some 9) :=
  ⟨rfl, by decide, rfl,
    createOp_fields_eq_prepared [] trimmedDto 5 (some 9) false false trimmedCreatedTask
      rfl (by decide) rfl⟩

/-- C5: a reassignment whose target user has a conflicting window fails
with the overlap error (the overlap-message ValidationError raised by the
domain service) and leaves the store completely unchanged — in particular
the task keeps its previous assignee — and runs no side effects. -/
theorem reassignOp_conflict_aborts (s : Store) (taskId : Nat) (dto : ReassignTaskDto)
    (cid : Option Nat) (qF nF : Bool) (task : Task)
    (hfind : findOne s taskId = some task)
    (hvalid : dto.assignedUserId ≠ 0)
    (hconf : hasOverlappingTasks s (some dto.assignedUserId) task.startDate task.endDate
      (some taskId) = true) :
    reassignOp s taskId dto cid qF nF =
      { result := .error (.validation overlapMessage), store := s, effects := [] } := by
  have hprep : prepareTaskReassignment s taskId dto = .error (.validation overlapMessage) := by
    unfold prepareTaskReassignment validateTaskReassignmentData
    rw [hfind]
    simp [bind, Except.bind, hvalid, hconf]
  unfold reassignOp
  rw [hprep]

/-- Task of user 1 over 0..10 used by the conflict witness. -/
def conflictTaskA : Task :=
  { id := 1, title := "A", description := none, assignedUserId := some 1,
    assignedById := some 9, status := TaskStatus.inProgress, startDate := 0, endDate := 10 }

/-- Task of user 2 over 5..15 used by the conflict witness. -/
def conflictTaskB : Task :=
  { id := 2, title := "B", description := none, assignedUserId := some 2,
    assignedById := some 9, status := TaskStatus.inProgress, startDate := 5, endDate := 15 }

/-- Witness for C5: reassigning task 1 from user 1 to user 2, whose task 2
overlaps the window of task 1, aborts with the overlap error and changes
nothing. -/
theorem reassignOp_conflict_aborts_witness :
    (findOne [conflictTaskA, conflictTaskB] 1 = some conflictTaskA) ∧ ((2 : Nat) ≠ 0) ∧
      (hasOverlappingTasks [conflictTaskA, conflictTaskB] (some 2) conflictTaskA.startDate
        conflictTaskA.endDate (some 1) = true) ∧
      reassignOp [conflictTaskA, conflictTaskB] 1 { assignedUserId := 2 } (some 9) false false =
        { result := .error (.validation overlapMessage),
          store := [conflictTaskA, conflictTaskB], effects := [] } :=
  ⟨rfl, by decide, rfl,
    reassignOp_conflict_aborts [conflictTaskA, conflictTaskB] 1 { assignedUserId := 2 }
      (some 9) false false conflictTaskA rfl (by decide) rfl⟩

/-- Task assigned to user 1 used to exhibit the reassignment side-effect
behaviour. -/
def reassignBugTask : Task :=
  { id := 1, title := "T", description := none, assignedUserId := some 1,
    assignedById := some 9, status := TaskStatus.inProgress, startDate := 0, endDate := 10 }

/-- The row stored after reassigning `reassignBugTask` to user 2. -/
def reassignBugSavedTask : Task :=
  { reassignBugTask with assignedUserId := some 2 }

/-- C3: a successful reassignment that changes the assignee from user 1 to
user 2 enqueues an availability job only for the new assignee — the
previous-assignee job the claim requires never runs, because the service
reads `oldAssignedUserId` from the entity after
`prepareTaskReassignment` has already mutated it in place, so the
changed-assignee comparison always sees the new value. -/
theorem reassignOp_previous_assignee_job_missing :
    (reassignOp [reassignBugTask] 1 { assignedUserId := 2 } (some 9) false false).result =
        .ok reassignBugSavedTask ∧
      (reassignOp [reassignBugTask] 1 { assignedUserId := 2 } (some 9) false false).effects =
        [Effect.queued 2] :=
  ⟨rfl, rfl⟩

/-- C4: a successful reassignment that changes the assignee from user 1 to
user 2 dispatches no notification at all — `notifyTaskReassigned`
compares the new assignee against `oldAssignedUserId`, which already
holds the new assignee because the entity was mutated in place during
preparation, so the guard always takes the early return. -/
theorem reassignOp_reassigned_notification_missing :
    (reassignOp [reassignBugTask] 1 { assignedUserId := 2 } (some 9) false false).result =
        .ok reassignBugSavedTask ∧
      ((reassignOp [reassignBugTask] 1 { assignedUserId := 2 } (some 9) false
        false).effects.filter Effect.isNotify = []) :=
  ⟨rfl, rfl⟩

/-- C9: a failure of an async side effect — the availability-queue enqueue
or the notification dispatch — is caught and logged inside the
application service, so for every operation the returned result and the
resulting store are identical to those of a run in which no side effect
fails; in particular an operation whose validation, availability check
and persistence succeed still returns success. -/
theorem asyncFailures_do_not_change_outcome (s : Store) (cdto : CreateTaskDto) (now : Int)
    (cid : Option Nat) (utid : Nat) (udto : UpdateTaskDto) (uuid : Option Nat)
    (urole : Option UserRole) (rtid : Nat) (rdto : ReassignTaskDto) (raid : Option Nat)
    (dtid : Nat) (qF nF : Bool) :
    ((createOp s cdto now cid qF nF).result = (createOp s cdto now cid false false).result ∧
      (createOp s cdto now cid qF nF).store = (createOp s cdto now cid false false).store) ∧
    ((updateOp s utid udto uuid urole qF nF).result =
        (updateOp s utid udto uuid urole false false).result ∧
      (updateOp s utid udto uuid urole qF nF).store =
        (updateOp s utid udto uuid urole false false).store) ∧
    ((reassignOp s rtid rdto raid qF nF).result =
        (reassignOp s rtid rdto raid false false).result ∧
      (reassignOp s rtid rdto raid qF nF).store =
        (reassignOp s rtid rdto raid false false).store) ∧
    ((deleteOp s dtid qF nF).result = (deleteOp s dtid false false).result ∧
      (deleteOp s dtid qF nF).store = (deleteOp s dtid false false).store) := by
  refine ⟨?_, ?_, ?_, ?_⟩
  · cases hp : prepareTaskCreation s cdto now with
    | error e => simp [createOp, hp]
    | ok f =>
        cases hf : findOne (s ++ [taskFromFields (buildTaskEntityForCreation cdto cid)
            (freshId s)]) (taskFromFields (buildTaskEntityForCreation cdto cid) (freshId s)).id with
        | none => simp [createOp, hp, hf]
        | some r => simp [createOp, hp, hf]
  · cases hp : prepareTaskUpdate s utid udto urole uuid with
    | error e => simp [updateOp, hp]
    | ok task =>
        cases hf : findOne (saveTask s (buildTaskEntityForUpdate task udto uuid))
            (buildTaskEntityForUpdate task udto uuid).id with
        | none => simp [updateOp, hp, hf]
        | some r => simp [updateOp, hp, hf]
  · cases hp : prepareTaskReassignment s rtid rdto with
    | error e => simp [reassignOp, hp]
    | ok task =>
        cases hf : findOne (saveTask s (buildTaskEntityForReassignment task rdto raid))
            (buildTaskEntityForReassignment task rdto raid).id with
        | none => simp [reassignOp, hp, hf]
        | some r => simp [reassignOp, hp, hf]
  · cases hp : validateTaskDeletion s dtid with
    | error e => simp [deleteOp, hp]
    | ok task => simp [deleteOp, hp]

/-- A row returned by `findOne` is stored and carries the looked-up id. -/
theorem findOne_mem_id (s : Store) (i : Nat) (t : Task) (h : findOne s i = some t) :
    t ∈ s ∧ t.id = i := by
  unfold findOne at h
  exact ⟨List.mem_of_find?_eq_some h, by simpa using List.find?_some h⟩

/-- Reloading after `save` of an entity whose id is present finds exactly
the saved entity. -/
theorem findOne_saveTask_self (s : Store) (t : Task) (hex : ∃ x ∈ s, x.id = t.id) :
    findOne (saveTask s t) t.id = some t := by
  induction s with
  | nil =>
      rcases hex with ⟨x, hx, _⟩
      cases hx
  | cons a as ih =>
      by_cases h : a.id = t.id
      · simp [saveTask, findOne, List.find?_cons_of_pos, h]
      · rcases hex with ⟨x, hx, hxid⟩
        rcases List.mem_cons.1 hx with rfl | hx2
        · exact absurd hxid h
        · have htail := ih ⟨x, hx2, hxid⟩
          unfold findOne saveTask at htail ⊢
          simp only [List.map_cons, if_neg h]
          rw [List.find?_cons_of_neg]
          · exact htail
          · simpa using h

/-- An update never changes the primary key. -/
theorem buildTaskEntityForUpdate_id (task : Task) (dto : UpdateTaskDto) (cid : Option Nat) :
    (buildTaskEntityForUpdate task dto cid).id = task.id := by
  unfold buildTaskEntityForUpdate
  split_ifs <;> rfl

/-- Inversion of a successful `prepareTaskUpdate`: the task was loaded by
id, and when the patch touches assignee or window the overlap check on
the effective assignee and range reported no conflict. -/
theorem prepareTaskUpdate_ok_inversion (s : Store) (taskId : Nat) (dto : UpdateTaskDto)
    (role : Option UserRole) (cid : Option Nat) (t : Task)
    (h : prepareTaskUpdate s taskId dto role cid = .ok t) :
    findOne s taskId = some t ∧
      (requiresOverlapValidation dto = true →
        hasOverlappingTasks s
          (if truthyId dto.assignedUserId then dto.assignedUserId else t.assignedUserId)
          (dto.startDate.getD t.startDate) (dto.endDate.getD t.endDate) (some taskId) = false) := by
  unfold prepareTaskUpdate at h
  cases hf : findOne s taskId with
  | none =>
      rw [hf] at h
      exact Except.noConfusion h
  | some task =>
      rw [hf] at h
      simp only [bind, Except.bind] at h
      cases hv : validateTaskUpdatePermissions task dto role cid with
      | error e =>
          rw [hv] at h
          exact Except.noConfusion h
      | ok u =>
          rw [hv] at h
          by_cases hreq : requiresOverlapValidation dto = true
          · simp only [calculateEffectiveDateRange, hreq, if_true] at h
            cases hov : hasOverlappingTasks s
                (if truthyId dto.assignedUserId then dto.assignedUserId else task.assignedUserId)
                (dto.startDate.getD task.startDate) (dto.endDate.getD task.endDate)
                (some taskId) with
            | true => simp [hov] at h
            | false =>
                simp [hov] at h
                subst h
                exact ⟨rfl, fun _ => hov⟩
          · simp [hreq] at h
            subst h
            exact ⟨rfl, fun hc => absurd hc hreq⟩

/-- Queue effects are never notifications. -/
theorem queueAvailabilityUpdate_no_notify (u : Option Nat) (b : Bool) :
    (queueAvailabilityUpdate u b).filter Effect.isNotify = [] := by
  unfold queueAvailabilityUpdate
  cases u with
  | none => rfl
  | some v => split_ifs <;> simp [Effect.isNotify]

/-- A conditional queue effect contributes no notification. -/
theorem filter_notify_ite_queue (c : Prop) [Decidable c] (u : Option Nat) (b : Bool) :
    (if c then queueAvailabilityUpdate u b else []).filter Effect.isNotify = [] := by
  split_ifs with h
  · exact queueAvailabilityUpdate_no_notify u b
  · rfl

/-- `notifyTaskCompleted` with a working channel notifies exactly the
truthy assigner. -/
theorem notifyTaskCompleted_eq (t : Task) :
    notifyTaskCompleted t false =
      if truthyId t.assignedById = true then
        [Effect.notified (t.assignedById.getD 0) ("task:completed")]
      else [] := by
  unfold notifyTaskCompleted
  cases t.assignedById with
  | none => simp [truthyId]
  | some u => by_cases h : u = 0 <;> simp [truthyId, h]

/-- Completion notifications consist of notification effects only. -/
theorem notifyTaskCompleted_filter (t : Task) :
    (notifyTaskCompleted t false).filter Effect.isNotify = notifyTaskCompleted t false := by
  unfold notifyTaskCompleted
  cases t.assignedById with
  | none => rfl
  | some u => split_ifs <;> simp [Effect.isNotify]

/-- Filtering notifications out of a conditional completion notification
is the identity. -/
theorem filter_notify_ite_completed (c : Prop) [Decidable c] (t : Task) :
    (if c then notifyTaskCompleted t false else []).filter Effect.isNotify =
      if c then notifyTaskCompleted t false else [] := by
  split_ifs with h
  · exact notifyTaskCompleted_filter t
  · rfl

/-- C8: during an update that succeeds, a task:completed notification is
dispatched to the assignedById of the updated task if and only if the dto
sets status to COMPLETED, the prior status was not COMPLETED, and the
updated task carries a truthy assignedById; no other notification is
dispatched by the update operation. -/
theorem updateOp_completed_notification (s : Store) (taskId : Nat) (dto : UpdateTaskDto)
    (cid : Option Nat) (role : Option UserRole) (task : Task)
    (hfind : findOne s taskId = some task)
    (hok : (updateOp s taskId dto cid role false false).result.isOk = true) :
    (updateOp s taskId dto cid role false false).effects.filter Effect.isNotify =
      if dto.status = some TaskStatus.completed ∧ task.status ≠ TaskStatus.completed ∧
          truthyId (buildTaskEntityForUpdate task dto cid).assignedById = true then
        [Effect.notified ((buildTaskEntityForUpdate task dto cid).assignedById.getD 0)
          ("task:completed")]
      else [] := by
  cases hp : prepareTaskUpdate s taskId dto role cid with
  | error e => simp [updateOp, hp, Except.isOk, Except.toBool] at hok
  | ok task2 =>
      have h2 : findOne s taskId = some task2 :=
        (prepareTaskUpdate_ok_inversion s taskId dto role cid task2 hp).1
      rw [hfind] at h2
      have hteq : task = task2 := Option.some.inj h2
      subst hteq
      have hexists : ∃ x ∈ s, x.id = (buildTaskEntityForUpdate task dto cid).id := by
        rcases findOne_mem_id s taskId task hfind with ⟨hmem, hid⟩
        exact ⟨task, hmem, by rw [buildTaskEntityForUpdate_id]⟩
      have hf2 : findOne (saveTask s (buildTaskEntityForUpdate task dto cid))
          (buildTaskEntityForUpdate task dto cid).id =
          some (buildTaskEntityForUpdate task dto cid) :=
        findOne_saveTask_self s (buildTaskEntityForUpdate task dto cid) hexists
      simp only [updateOp, hp, hf2]
      rw [List.filter_append, List.filter_append, filter_notify_ite_queue,
        filter_notify_ite_queue, filter_notify_ite_completed, notifyTaskCompleted_eq]
      simp only [List.nil_append]
      split_ifs with h1 h2 h3 <;> first | rfl | (exfalso; tauto)

/-- Task of user 1 with assigner 9 used by the completion witness. -/
def completionTask : Task :=
  { id := 1, title := "T", description := none, assignedUserId := some 1,
    assignedById := some 9, status := TaskStatus.inProgress, startDate := 0, endDate := 10 }

/-- A status-only patch that marks a task COMPLETED. -/
def completionDto : UpdateTaskDto :=
  { title := none, description := none, startDate := none, endDate := none,
    assignedUserId := none, status := some TaskStatus.completed }

/-- Witness for C8: completing an in-progress task notifies its assigner. -/
theorem updateOp_completed_notification_witness :
    (findOne [completionTask] 1 = some completionTask) ∧
      ((updateOp [completionTask] 1 completionDto (some 9) (some UserRole.admin) false
        false).result.isOk = true) ∧
      (updateOp [completionTask] 1 completionDto (some 9) (some UserRole.admin) false
        false).effects.filter Effect.isNotify = [Effect.notified 9 ("task:completed")] :=
  ⟨rfl, rfl,
    (updateOp_completed_notification [completionTask] 1 completionDto (some 9)
      (some UserRole.admin) completionTask rfl rfl).trans (by decide)⟩

/-- A task window covers an instant, boundary-inclusive. -/
def coversInstant (t : Task) (i : Int) : Prop :=
  t.startDate ≤ i ∧ i ≤ t.endDate

/-- The no-overlap invariant of the spec: for every user and every
instant, at most one non-completed task assigned to that user has a
window covering that instant. -/
def noOverlapInvariant (s : Store) : Prop :=
  ∀ t1 ∈ s, ∀ t2 ∈ s, t1.id ≠ t2.id → t1.assignedUserId.isSome = true →
    t1.assignedUserId = t2.assignedUserId → t1.status ≠ TaskStatus.completed →
    t2.status ≠ TaskStatus.completed → ∀ i : Int, ¬(coversInstant t1 i ∧ coversInstant t2 i)

/-- When the overlap query reports no conflict, no stored task of the
queried user that is non-completed and not excluded shares an instant
with the proposed window. -/
theorem no_window_overlap_of_check_false (s : Store) (u : Nat) (sd ed : Int) (ex : Option Nat)
    (h : hasOverlappingTasks s (some u) sd ed ex = false)
    (t : Task) (ht : t ∈ s) (hu : t.assignedUserId = some u)
    (hst : t.status ≠ TaskStatus.completed)
    (hex : ∀ e, ex = some e → e ≠ 0 → t.id ≠ e)
    (i : Int) (h1 : coversInstant t i) (h2 : sd ≤ i ∧ i ≤ ed) : False := by
  have htrue : hasOverlappingTasks s (some u) sd ed ex = true := by
    rw [hasOverlappingTasks_true_iff]
    refine ⟨t, ht, ?_, hex⟩
    rw [taskMatchesOverlapQuery_iff]
    exact ⟨hu, hst, le_trans h1.1 h2.2, le_trans h2.1 h1.2⟩
  rw [h] at htrue
  exact Bool.noConfusion htrue

/-- A row of the store after a save is the saved entity or an untouched
row with a different id. -/
theorem mem_saveTask (s : Store) (t x : Task) (hx : x ∈ saveTask s t) :
    x = t ∨ (x ∈ s ∧ x.id ≠ t.id) := by
  unfold saveTask at hx
  rcases List.mem_map.1 hx with ⟨y, hy, hxy⟩
  by_cases h : y.id = t.id
  · left
    rw [← hxy]
    simp [h]
  · right
    rw [← hxy]
    simp only [if_neg h]
    exact ⟨hy, h⟩

/-- Inversion of a successful `prepareTaskCreation`: the overlap check on
the requested assignee and window reported no conflict. -/
theorem prepareTaskCreation_ok_inversion (s : Store) (dto : CreateTaskDto) (now : Int)
    (f : TaskFields) (h : prepareTaskCreation s dto now = .ok f) :
    hasOverlappingTasks s dto.assignedUserId (dto.startDate.getD 0)
      (dto.endDate.getD 0) none = false := by
  unfold prepareTaskCreation at h
  simp only [bind, Except.bind] at h
  cases hv : validateTaskCreationData dto now with
  | error e =>
      rw [hv] at h
      exact Except.noConfusion h
  | ok u =>
      rw [hv] at h
      cases hov : hasOverlappingTasks s dto.assignedUserId (dto.startDate.getD 0)
          (dto.endDate.getD 0) none with
      | true => simp [hov] at h
      | false => rfl

/-- Inversion of a successful `prepareTaskReassignment`: the task was
loaded, the overlap check for the new assignee over the unchanged window
reported no conflict, and the returned entity is the loaded task mutated
by `applyTaskReassignment`. -/
theorem prepareTaskReassignment_ok_inversion (s : Store) (taskId : Nat)
    (dto : ReassignTaskDto) (t : Task) (h : prepareTaskReassignment s taskId dto = .ok t) :
    ∃ task, findOne s taskId = some task ∧
      hasOverlappingTasks s (some dto.assignedUserId) task.startDate task.endDate
        (some taskId) = false ∧
      t = applyTaskReassignment task dto none := by
  unfold prepareTaskReassignment at h
  cases hf : findOne s taskId with
  | none =>
      rw [hf] at h
      exact Except.noConfusion h
  | some task =>
      rw [hf] at h
      simp only [bind, Except.bind, validateTaskReassignmentData] at h
      by_cases hz : dto.assignedUserId = 0
      · simp [hz] at h
      · simp only [hz, if_false, if_neg hz] at h
        cases hov : hasOverlappingTasks s (some dto.assignedUserId) task.startDate
            task.endDate (some taskId) with
        | true => simp [hov] at h
        | false =>
            simp [hov] at h
            exact ⟨task, rfl, hov, h.symm⟩

/-- When no overlap validation is required, the patch touches neither the
assignee nor the window. -/
theorem requiresOverlapValidation_false_inversion (dto : UpdateTaskDto)
    (h : requiresOverlapValidation dto = false) :
    truthyId dto.assignedUserId = false ∧ dto.startDate = none ∧ dto.endDate = none := by
  unfold requiresOverlapValidation at h
  simp only [Bool.or_eq_false_iff] at h
  refine ⟨h.1.1, ?_, ?_⟩
  · have hsd := h.1.2
    cases hx : dto.startDate with
    | none => rfl
    | some v =>
        rw [hx] at hsd
        exact Bool.noConfusion hsd
  · have hed := h.2
    cases hx : dto.endDate with
    | none => rfl
    | some v =>
        rw [hx] at hed
        exact Bool.noConfusion hed

/-- The saved start date is the patched one. -/
theorem buildTaskEntityForUpdate_startDate (task : Task) (dto : UpdateTaskDto) (cid : Option Nat) :
    (buildTaskEntityForUpdate task dto cid).startDate = dto.startDate.getD task.startDate := rfl

/-- The saved end date is the patched one. -/
theorem buildTaskEntityForUpdate_endDate (task : Task) (dto : UpdateTaskDto) (cid : Option Nat) :
    (buildTaskEntityForUpdate task dto cid).endDate = dto.endDate.getD task.endDate := rfl

/-- The saved status is the patched one. -/
theorem buildTaskEntityForUpdate_status (task : Task) (dto : UpdateTaskDto) (cid : Option Nat) :
    (buildTaskEntityForUpdate task dto cid).status = dto.status.getD task.status := rfl

/-- The saved assignee is the effective assignee of the overlap check:
the dto value when truthy, the existing one otherwise. -/
theorem buildTaskEntityForUpdate_assignedUserId (task : Task) (dto : UpdateTaskDto)
    (cid : Option Nat) :
    (buildTaskEntityForUpdate task dto cid).assignedUserId =
      (if truthyId dto.assignedUserId then dto.assignedUserId else task.assignedUserId) := by
  unfold buildTaskEntityForUpdate
  by_cases h1 : truthyId dto.assignedUserId = true
  · by_cases h2 : dto.assignedUserId = task.assignedUserId
    · rw [if_neg (by intro hc; exact hc.2 h2), if_pos h1, h2]
    · rw [if_pos ⟨h1, h2⟩, if_pos h1]
  · rw [if_neg (by intro hc; exact h1 hc.1), if_neg h1]

/-- The create operation preserves the no-overlap invariant: its overlap
check covers every stored task of the requested assignee. -/
theorem createOp_preserves_invariant (s : Store) (dto : CreateTaskDto) (now : Int)
    (cid : Option Nat) (qF nF : Bool) (hinv : noOverlapInvariant s) :
    noOverlapInvariant (createOp s dto now cid qF nF).store := by
  cases hp : prepareTaskCreation s dto now with
  | error e => simpa [createOp, hp] using hinv
  | ok f =>
      have hov := prepareTaskCreation_ok_inversion s dto now f hp
      have hstore : (createOp s dto now cid qF nF).store =
          s ++ [taskFromFields (buildTaskEntityForCreation dto cid) (freshId s)] := by
        cases hfind : findOne
            (s ++ [taskFromFields (buildTaskEntityForCreation dto cid) (freshId s)])
            (taskFromFields (buildTaskEntityForCreation dto cid) (freshId s)).id with
        | none => simp [createOp, hp, hfind]
        | some r => simp [createOp, hp, hfind]
      rw [hstore]
      intro t1 h1 t2 h2 hid h1some hequ h1c h2c i hcov
      rcases List.mem_append.1 h1 with h1s | h1n
      · rcases List.mem_append.1 h2 with h2s | h2n
        · exact hinv t1 h1s t2 h2s hid h1some hequ h1c h2c i hcov
        · have ht2 : t2 = taskFromFields (buildTaskEntityForCreation dto cid) (freshId s) := by
            simpa using h2n
          subst ht2
          rcases Option.isSome_iff_exists.1 h1some with ⟨u, hu⟩
          have hdto : dto.assignedUserId = some u := hequ.symm.trans hu
          rw [hdto] at hov
          exact no_window_overlap_of_check_false s u (dto.startDate.getD 0)
            (dto.endDate.getD 0) none hov t1 h1s hu h1c
            (fun e he => Option.noConfusion he) i hcov.1 ⟨hcov.2.1, hcov.2.2⟩
      · have ht1 : t1 = taskFromFields (buildTaskEntityForCreation dto cid) (freshId s) := by
          simpa using h1n
        subst ht1
        rcases List.mem_append.1 h2 with h2s | h2n
        · rcases Option.isSome_iff_exists.1 h1some with ⟨u, hu⟩
          have hdto : dto.assignedUserId = some u := hu
          have hu2 : t2.assignedUserId = some u := by
            rw [← hequ]
            exact hu
          rw [hdto] at hov
          exact no_window_overlap_of_check_false s u (dto.startDate.getD 0)
            (dto.endDate.getD 0) none hov t2 h2s hu2 h2c
            (fun e he => Option.noConfusion he) i hcov.2 ⟨hcov.1.1, hcov.1.2⟩
        · have ht2 : t2 = taskFromFields (buildTaskEntityForCreation dto cid) (freshId s) := by
            simpa using h2n
          subst ht2
          exact hid rfl

/-- The reassign operation preserves the no-overlap invariant: its
overlap check covers every other task of the new assignee over the
unchanged window. -/
theorem reassignOp_preserves_invariant (s : Store) (taskId : Nat) (rdto : ReassignTaskDto)
    (raid : Option Nat) (qF nF : Bool) (hinv : noOverlapInvariant s) :
    noOverlapInvariant (reassignOp s taskId rdto raid qF nF).store := by
  cases hp : prepareTaskReassignment s taskId rdto with
  | error e => simpa [reassignOp, hp] using hinv
  | ok t0 =>
      rcases prepareTaskReassignment_ok_inversion s taskId rdto t0 hp with
        ⟨task, hfind, hov, ht0⟩
      rcases findOne_mem_id s taskId task hfind with ⟨hmem, hidtask⟩
      subst ht0
      have hstore : (reassignOp s taskId rdto raid qF nF).store =
          saveTask s (buildTaskEntityForReassignment (applyTaskReassignment task rdto none)
            rdto raid) := by
        cases hfind2 : findOne (saveTask s (buildTaskEntityForReassignment
            (applyTaskReassignment task rdto none) rdto raid))
            (buildTaskEntityForReassignment (applyTaskReassignment task rdto none)
              rdto raid).id with
        | none => simp [reassignOp, hp, hfind2]
        | some r => simp [reassignOp, hp, hfind2]
      rw [hstore]
      intro t1 h1 t2 h2 hid h1some hequ h1c h2c i hcov
      rcases mem_saveTask _ _ _ h1 with h1n | ⟨h1s, h1ne⟩
      · rcases mem_saveTask _ _ _ h2 with h2n | ⟨h2s, h2ne⟩
        · rw [h1n, h2n] at hid
          exact hid rfl
        · subst h1n
          have hu2 : t2.assignedUserId = some rdto.assignedUserId := by
            rw [← hequ]
            rfl
          refine no_window_overlap_of_check_false s rdto.assignedUserId task.startDate
            task.endDate (some taskId) hov t2 h2s hu2 h2c ?_ i hcov.2 ⟨hcov.1.1, hcov.1.2⟩
          intro e he _
          rw [← Option.some.inj he]
          intro hc
          exact h2ne (hc.trans hidtask.symm)
      · rcases mem_saveTask _ _ _ h2 with h2n | ⟨h2s, h2ne⟩
        · subst h2n
          have hu1 : t1.assignedUserId = some rdto.assignedUserId := by
            rw [hequ]
            rfl
          refine no_window_overlap_of_check_false s rdto.assignedUserId task.startDate
            task.endDate (some taskId) hov t1 h1s hu1 h1c ?_ i hcov.1 ⟨hcov.2.1, hcov.2.2⟩
          intro e he _
          rw [← Option.some.inj he]
          intro hc
          exact h1ne (hc.trans hidtask.symm)
        · exact hinv t1 h1s t2 h2s hid h1some hequ h1c h2c i hcov

/-- The delete operation preserves the no-overlap invariant. -/
theorem deleteOp_preserves_invariant (s : Store) (taskId : Nat) (qF nF : Bool)
    (hinv : noOverlapInvariant s) :
    noOverlapInvariant (deleteOp s taskId qF nF).store := by
  cases hp : validateTaskDeletion s taskId with
  | error e => simpa [deleteOp, hp] using hinv
  | ok task =>
      have hstore : (deleteOp s taskId qF nF).store = deleteTask s taskId := by
        simp [deleteOp, hp]
      rw [hstore]
      intro t1 h1 t2 h2 hid h1some hequ h1c h2c i hcov
      have h1s : t1 ∈ s := (List.mem_filter.1 h1).1
      have h2s : t2 ∈ s := (List.mem_filter.1 h2).1
      exact hinv t1 h1s t2 h2s hid h1some hequ h1c h2c i hcov

/-- The update operation preserves the no-overlap invariant provided it
either touches the assignee or the window (which triggers the overlap
re-check) or does not revert a COMPLETED task to IN_PROGRESS. -/
theorem updateOp_preserves_invariant (s : Store) (taskId : Nat) (dto : UpdateTaskDto)
    (cid : Option Nat) (role : Option UserRole) (qF nF : Bool)
    (hinv : noOverlapInvariant s)
    (hprov : ∀ task, findOne s taskId = some task →
      requiresOverlapValidation dto = true ∨
        ¬(task.status = TaskStatus.completed ∧ dto.status = some TaskStatus.inProgress)) :
    noOverlapInvariant (updateOp s taskId dto cid role qF nF).store := by
  cases hp : prepareTaskUpdate s taskId dto role cid with
  | error e => simpa [updateOp, hp] using hinv
  | ok task =>
      rcases prepareTaskUpdate_ok_inversion s taskId dto role cid task hp with ⟨hfind, hcheck⟩
      rcases findOne_mem_id s taskId task hfind with ⟨hmem, hidtask⟩
      have hstore : (updateOp s taskId dto cid role qF nF).store =
          saveTask s (buildTaskEntityForUpdate task dto cid) := by
        cases hfind2 : findOne (saveTask s (buildTaskEntityForUpdate task dto cid))
            (buildTaskEntityForUpdate task dto cid).id with
        | none => simp [updateOp, hp, hfind2]
        | some r => simp [updateOp, hp, hfind2]
      rw [hstore]
      have hsid : (buildTaskEntityForUpdate task dto cid).id = task.id :=
        buildTaskEntityForUpdate_id task dto cid
      intro t1 h1 t2 h2 hid h1some hequ h1c h2c i hcov
      rcases mem_saveTask _ _ _ h1 with h1n | ⟨h1s, h1ne⟩
      · rcases mem_saveTask _ _ _ h2 with h2n | ⟨h2s, h2ne⟩
        · rw [h1n, h2n] at hid
          exact hid rfl
        · -- t1 is the saved task, t2 an untouched row
          subst h1n
          by_cases hreq : requiresOverlapValidation dto = true
          · have hov := hcheck hreq
            rcases Option.isSome_iff_exists.1 h1some with ⟨u, hu⟩
            have heff : (if truthyId dto.assignedUserId then dto.assignedUserId
                else task.assignedUserId) = some u := by
              rw [← buildTaskEntityForUpdate_assignedUserId task dto cid]
              exact hu
            rw [heff] at hov
            have hu2 : t2.assignedUserId = some u := by
              rw [← hequ]
              exact hu
            refine no_window_overlap_of_check_false s u (dto.startDate.getD task.startDate)
              (dto.endDate.getD task.endDate) (some taskId) hov t2 h2s hu2 h2c ?_ i hcov.2 ?_
            · intro e he _
              rw [← Option.some.inj he]
              intro hc
              apply h2ne
              rw [hc, ← hidtask]
              exact hsid.symm
            · constructor
              · rw [← buildTaskEntityForUpdate_startDate task dto cid]
                exact hcov.1.1
              · rw [← buildTaskEntityForUpdate_endDate task dto cid]
                exact hcov.1.2
          · have hreqf : requiresOverlapValidation dto = false := by
              cases hx : requiresOverlapValidation dto with
              | true => exact absurd hx hreq
              | false => rfl
            rcases requiresOverlapValidation_false_inversion dto hreqf with ⟨hnt, hsd, hed⟩
            have huser : (buildTaskEntityForUpdate task dto cid).assignedUserId =
                task.assignedUserId := by
              rw [buildTaskEntityForUpdate_assignedUserId task dto cid, if_neg]
              simp [hnt]
            have hstart : (buildTaskEntityForUpdate task dto cid).startDate =
                task.startDate := by
              rw [buildTaskEntityForUpdate_startDate task dto cid, hsd]
              rfl
            have hend : (buildTaskEntityForUpdate task dto cid).endDate = task.endDate := by
              rw [buildTaskEntityForUpdate_endDate task dto cid, hed]
              rfl
            have htasknc : task.status ≠ TaskStatus.completed := by
              intro htc
              rcases hprov task hfind with hc | hc
              · exact hreq hc
              · apply hc
                refine ⟨htc, ?_⟩
                cases hst : dto.status with
                | none =>
                    exfalso
                    apply h1c
                    rw [buildTaskEntityForUpdate_status task dto cid, hst]
                    exact htc
                | some x =>
                    cases x with
                    | inProgress => rfl
                    | completed =>
                        exfalso
                        apply h1c
                        rw [buildTaskEntityForUpdate_status task dto cid, hst]
                        rfl
            refine hinv task hmem t2 h2s ?_ ?_ ?_ htasknc h2c i ⟨?_, hcov.2⟩
            · intro hc
              apply h2ne
              rw [← hc, ← hsid]
            · rw [← huser]
              exact h1some
            · rw [← huser, hequ]
            · constructor
              · rw [← hstart]
                exact hcov.1.1
              · rw [← hend]
                exact hcov.1.2
      · rcases mem_saveTask _ _ _ h2 with h2n | ⟨h2s, h2ne⟩
        · -- t2 is the saved task, t1 an untouched row
          subst h2n
          by_cases hreq : requiresOverlapValidation dto = true
          · have hov := hcheck hreq
            rcases Option.isSome_iff_exists.1 h1some with ⟨u, hu⟩
            have heff : (if truthyId dto.assignedUserId then dto.assignedUserId
                else task.assignedUserId) = some u := by
              rw [← buildTaskEntityForUpdate_assignedUserId task dto cid, ← hequ]
              exact hu
            rw [heff] at hov
            refine no_window_overlap_of_check_false s u (dto.startDate.getD task.startDate)
              (dto.endDate.getD task.endDate) (some taskId) hov t1 h1s hu h1c ?_ i hcov.1 ?_
            · intro e he _
              rw [← Option.some.inj he]
              intro hc
              apply h1ne
              rw [hc, ← hidtask]
              exact hsid.symm
            · constructor
              · rw [← buildTaskEntityForUpdate_startDate task dto cid]
                exact hcov.2.1
              · rw [← buildTaskEntityForUpdate_endDate task dto cid]
                exact hcov.2.2
          · have hreqf : requiresOverlapValidation dto = false := by
              cases hx : requiresOverlapValidation dto with
              | true => exact absurd hx hreq
              | false => rfl
            rcases requiresOverlapValidation_false_inversion dto hreqf with ⟨hnt, hsd, hed⟩
            have huser : (buildTaskEntityForUpdate task dto cid).assignedUserId =
                task.assignedUserId := by
              rw [buildTaskEntityForUpdate_assignedUserId task dto cid, if_neg]
              simp [hnt]
            have hstart : (buildTaskEntityForUpdate task dto cid).startDate =
                task.startDate := by
              rw [buildTaskEntityForUpdate_startDate task dto cid, hsd]
              rfl
            have hend : (buildTaskEntityForUpdate task dto cid).endDate = task.endDate := by
              rw [buildTaskEntityForUpdate_endDate task dto cid, hed]
              rfl
            have htasknc : task.status ≠ TaskStatus.completed := by
              intro htc
              rcases hprov task hfind with hc | hc
              · exact hreq hc
              · apply hc
                refine ⟨htc, ?_⟩
                cases hst : dto.status with
                | none =>
                    exfalso
                    apply h2c
                    rw [buildTaskEntityForUpdate_status task dto cid, hst]
                    exact htc
                | some x =>
                    cases x with
                    | inProgress => rfl
                    | completed =>
                        exfalso
                        apply h2c
                        rw [buildTaskEntityForUpdate_status task dto cid, hst]
                        rfl
            refine hinv t1 h1s task hmem ?_ h1some ?_ h1c htasknc i ⟨hcov.1, ?_⟩
            · intro hc
              apply h1ne
              rw [hc, ← hsid]
            · rw [hequ, huser]
            · constructor
              · rw [← hstart]
                exact hcov.2.1
              · rw [← hend]
                exact hcov.2.2
        · exact hinv t1 h1s t2 h2s hid h1some hequ h1c h2c i hcov

/-- C2 amended: starting from a store satisfying the no-overlap
invariant, create, reassign and delete always preserve it, and update
preserves it provided the patch either touches assignedUserId, startDate
or endDate (triggering the overlap re-check) or does not set an
IN_PROGRESS status on a COMPLETED task; the status-only revert excluded
here is exactly the case of the counterexample. -/
theorem operations_preserve_noOverlapInvariant (s : Store) (cdto : CreateTaskDto) (now : Int)
    (cid : Option Nat) (utid : Nat) (udto : UpdateTaskDto) (uuid : Option Nat)
    (urole : Option UserRole) (rtid : Nat) (rdto : ReassignTaskDto) (raid : Option Nat)
    (dtid : Nat) (qF nF : Bool)
    (hinv : noOverlapInvariant s)
    (hprov : ∀ task, findOne s utid = some task →
      requiresOverlapValidation udto = true ∨
        ¬(task.status = TaskStatus.completed ∧ udto.status = some TaskStatus.inProgress)) :
    noOverlapInvariant (createOp s cdto now cid qF nF).store ∧
    noOverlapInvariant (updateOp s utid udto uuid urole qF nF).store ∧
    noOverlapInvariant (reassignOp s rtid rdto raid qF nF).store ∧
    noOverlapInvariant (deleteOp s dtid qF nF).store :=
  ⟨createOp_preserves_invariant s cdto now cid qF nF hinv,
   updateOp_preserves_invariant s utid udto uuid urole qF nF hinv hprov,
   reassignOp_preserves_invariant s rtid rdto raid qF nF hinv,
   deleteOp_preserves_invariant s dtid qF nF hinv⟩

/-- A COMPLETED task of user 1 over 0..10. -/
def completedOverlapTask : Task :=
  { id := 1, title := "a", description := none, assignedUserId := some 1,
    assignedById := some 9, status := TaskStatus.completed, startDate := 0, endDate := 10 }

/-- An IN_PROGRESS task of user 1 over the same window 0..10. -/
def activeOverlapTask : Task :=
  { id := 2, title := "b", description := none, assignedUserId := some 1,
    assignedById := some 9, status := TaskStatus.inProgress, startDate := 0, endDate := 10 }

/-- A status-only patch reverting a task to IN_PROGRESS. -/
def statusRevertDto : UpdateTaskDto :=
  { title := none, description := none, startDate := none, endDate := none,
    assignedUserId := none, status := some TaskStatus.inProgress }

/-- C2 counterexample: a store holding a COMPLETED and an IN_PROGRESS
task of the same user over the same window satisfies the invariant, yet
the status-only update that reverts the completed task to IN_PROGRESS
succeeds without any overlap re-check and leaves the store with two
non-completed tasks of user 1 covering instant 0. -/
theorem update_breaks_noOverlapInvariant :
    noOverlapInvariant [completedOverlapTask, activeOverlapTask] ∧
      (updateOp [completedOverlapTask, activeOverlapTask] 1 statusRevertDto (some 9)
        (some UserRole.admin) false false).result =
        .ok { completedOverlapTask with status := TaskStatus.inProgress } ∧
      ¬ noOverlapInvariant (updateOp [completedOverlapTask, activeOverlapTask] 1
        statusRevertDto (some 9) (some UserRole.admin) false false).store := by
  refine ⟨?_, rfl, ?_⟩
  · intro t1 h1 t2 h2 hid h1some hequ h1c h2c i hcov
    rcases List.mem_cons.1 h1 with rfl | h1b
    · exact h1c rfl
    · rcases List.mem_cons.1 h1b with rfl | h1c2
      · rcases List.mem_cons.1 h2 with rfl | h2b
        · exact h2c rfl
        · rcases List.mem_cons.1 h2b with rfl | h2c2
          · exact hid rfl
          · cases h2c2
      · cases h1c2
  · intro hinv
    have hstore : (updateOp [completedOverlapTask, activeOverlapTask] 1 statusRevertDto
        (some 9) (some UserRole.admin) false false).store =
        [{ completedOverlapTask with status := TaskStatus.inProgress }, activeOverlapTask] := rfl
    rw [hstore] at hinv
    exact hinv { completedOverlapTask with status := TaskStatus.inProgress }
      (List.mem_cons_self _ _) activeOverlapTask
      (List.mem_cons_of_mem _ (List.mem_cons_self _ _)) (by decide) (by decide) rfl
      (by decide) (by decide) 0 ⟨⟨by decide, by decide⟩, ⟨by decide, by decide⟩⟩

/-- A small valid creation request used by the invariant witness. -/
def invariantCreateDto : CreateTaskDto :=
  { title := some ("T"), description := none, startDate := some 0, endDate := some 1,
    assignedUserId := some 1, status := none }

/-- Witness for the amended C2 on the empty store. -/
theorem operations_preserve_noOverlapInvariant_witness :
    noOverlapInvariant (createOp [] invariantCreateDto 0 (some 9) false false).store ∧
    noOverlapInvariant (updateOp [] 1 statusRevertDto (some 9) (some UserRole.admin)
      false false).store ∧
    noOverlapInvariant (reassignOp [] 1 { assignedUserId := 2 } (some 9) false false).store ∧
    noOverlapInvariant (deleteOp [] 1 false false).store :=
  operations_preserve_noOverlapInvariant [] invariantCreateDto 0 (some 9) 1
    statusRevertDto (some 9) (some UserRole.admin) 1 { assignedUserId := 2 } (some 9) 1
    false false
    (fun t1 h1 => absurd h1 (List.not_mem_nil t1))
    (fun _ h => Option.noConfusion h)
